import Mathlib

/-!
Verification development for the ModbusLink protocol engine.

Machine bytes are modelled as `Nat` values with explicit `< 256` bounds,
byte strings as `List Nat`, 16-bit registers as `Nat` values `< 65536`.
Where a component of the repository is not present among the sources
(only its declarations, examples or tests are), the corresponding
definition is modelled from the specification and says so in its
doc comment.
-/

namespace ModbusLink

/-- Error taxonomy of the library.
Modelled from the spec: `common/exceptions.py` is declared by
`src/modbuslink/__init__.py` but absent from the sources; spec §7 lists
`ConnectionError`, `TimeoutError`, `CRCError`, `InvalidResponseError`,
`ModbusException(code)` and local argument-validation errors. -/
inductive ModbusLinkError where
  | connectionError : ModbusLinkError
  | timeoutError : ModbusLinkError
  | crcError : ModbusLinkError
  | invalidResponseError : ModbusLinkError
  | modbusException (code : Nat) : ModbusLinkError
  | invalidArgument : ModbusLinkError
deriving DecidableEq

/-- One bit step of the Modbus CRC16: shift right, conditionally xor the
polynomial `0xA001`.
Modelled from the spec: `utils/crc16.py` is absent from the sources; spec
§4.1 fixes polynomial `0xA001` and initial value `0xFFFF`. -/
def crcBit (c : Nat) : Nat :=
  if c % 2 = 1 then (c / 2) ^^^ 0xA001 else c / 2

/-- Fold one byte into the CRC16 state: xor it in, run eight bit steps. -/
def crcByte (c b : Nat) : Nat :=
  crcBit (crcBit (crcBit (crcBit (crcBit (crcBit (crcBit (crcBit (c ^^^ b))))))))

/-- Modbus CRC16 over a byte string (init `0xFFFF`, poly `0xA001`). -/
def crc16 (data : List Nat) : Nat :=
  data.foldl crcByte 0xFFFF

/-- Sum of the bytes of a byte string. -/
def sumBytes (data : List Nat) : Nat :=
  data.foldl (· + ·) 0

/-- Modbus LRC: two's-complement negation of the byte sum modulo 256.
Modelled from the spec: `utils/lrc.py` is absent from the sources; spec
§4.1: "sum of bytes mod 256, negated (two's complement)". -/
def lrc (data : List Nat) : Nat :=
  (256 - sumBytes data % 256) % 256

/-- A unit identifier is an integer in `0..247` (spec §3). -/
def ValidUnit (u : Nat) : Prop :=
  u ≤ 247

/-- A well-formed Modbus PDU: non-empty, at most 253 bytes, every element
an actual byte. -/
def WellFormedPdu (p : List Nat) : Prop :=
  p ≠ [] ∧ p.length ≤ 253 ∧ ∀ b ∈ p, b < 256

/-- RTU framing: `unit | pdu | crc16` with the CRC over unit+PDU appended
low byte first.
Modelled from the spec: `transport/rtu.py` is absent from the sources;
spec §6 wire format `unit(1) | pdu(N) | crc16_le(2)`. -/
def encodeRtu (unitId : Nat) (pdu : List Nat) : List Nat :=
  unitId :: (pdu ++ [crc16 (unitId :: pdu) % 256, crc16 (unitId :: pdu) / 256])

/-- RTU deframing of a complete frame: split off the unit byte and the two
trailing CRC bytes, verify the CRC over everything before them.
Modelled from the spec: `transport/rtu.py` is absent from the sources;
spec §4.3: verify CRC16 over all bytes except the trailing CRC, mismatch
is `CRCError`, never silently accepted. -/
def decodeRtu (frame : List Nat) : Except ModbusLinkError (Nat × List Nat) :=
  match frame with
  | unitB :: rest =>
    if 3 ≤ rest.length then
      let pdu := rest.take (rest.length - 2)
      if rest.drop (rest.length - 2) =
          [crc16 (unitB :: pdu) % 256, crc16 (unitB :: pdu) / 256] then
        Except.ok (unitB, pdu)
      else
        Except.error ModbusLinkError.crcError
    else
      Except.error ModbusLinkError.invalidResponseError
  | [] => Except.error ModbusLinkError.invalidResponseError

theorem decodeRtu_encodeRtu (u : Nat) (p : List Nat) (hp : p ≠ []) :
    decodeRtu (encodeRtu u p) = Except.ok (u, p) := by
  have hp1 : 1 ≤ p.length := List.length_pos.mpr hp
  have hlen : (p ++ [crc16 (u :: p) % 256, crc16 (u :: p) / 256]).length = p.length + 2 := by
    simp
  have htake : (p ++ [crc16 (u :: p) % 256, crc16 (u :: p) / 256]).take
      ((p ++ [crc16 (u :: p) % 256, crc16 (u :: p) / 256]).length - 2) = p := by
    rw [hlen]
    exact List.take_left' rfl
  have hdrop : (p ++ [crc16 (u :: p) % 256, crc16 (u :: p) / 256]).drop
      ((p ++ [crc16 (u :: p) % 256, crc16 (u :: p) / 256]).length - 2) =
      [crc16 (u :: p) % 256, crc16 (u :: p) / 256] := by
    rw [hlen]
    exact List.drop_left' rfl
  show (if 3 ≤ (p ++ [crc16 (u :: p) % 256, crc16 (u :: p) / 256]).length then _ else _) = _
  rw [if_pos (by rw [hlen]; omega)]
  simp [htake, hdrop]

/-- TCP framing: 7-byte MBAP header (big-endian transaction id, protocol
id 0, big-endian length = 1 + PDU length, unit id) followed by the PDU.
Modelled from the spec: `transport/tcp.py` is absent from the sources;
spec §6 wire format `txn_id_be(2) | proto_id_be(2)=0 | length_be(2) |
unit(1) | pdu`. -/
def encodeTcp (txn unitId : Nat) (pdu : List Nat) : List Nat :=
  [txn / 256, txn % 256, 0, 0, (1 + pdu.length) / 256, (1 + pdu.length) % 256, unitId] ++ pdu

/-- TCP deframing of a complete frame: read the 7 header bytes, check the
transaction id against the request's, check protocol id 0 and the length
field, return unit and PDU.
Modelled from the spec: `transport/tcp.py` is absent from the sources;
spec §4.3: read exactly 7 header bytes, extract length, transaction id
must match the request's, protocol id must be 0. -/
def decodeTcp (expectedTxn : Nat) (frame : List Nat) :
    Except ModbusLinkError (Nat × List Nat) :=
  match frame with
  | t1 :: t2 :: p1 :: p2 :: l1 :: l2 :: unitB :: rest =>
    if t1 * 256 + t2 ≠ expectedTxn then
      Except.error ModbusLinkError.invalidResponseError
    else if p1 ≠ 0 ∨ p2 ≠ 0 then
      Except.error ModbusLinkError.invalidResponseError
    else if l1 * 256 + l2 ≠ 1 + rest.length then
      Except.error ModbusLinkError.invalidResponseError
    else
      Except.ok (unitB, rest)
  | _ => Except.error ModbusLinkError.invalidResponseError

theorem decodeTcp_encodeTcp (txn u : Nat) (p : List Nat) (htxn : txn < 65536)
    (hlen : p.length ≤ 65534) :
    decodeTcp txn (encodeTcp txn u p) = Except.ok (u, p) := by
  show (if txn / 256 * 256 + txn % 256 ≠ txn then _
    else if (0 : Nat) ≠ 0 ∨ (0 : Nat) ≠ 0 then _
    else if (1 + p.length) / 256 * 256 + (1 + p.length) % 256 ≠ 1 + p.length then _
    else Except.ok (u, p)) = Except.ok (u, p)
  rw [if_neg (by omega), if_neg (by omega), if_neg (by omega)]

/-- Uppercase hex digit of a value `< 16`: `0-9` then `A-F`. -/
def hexDigitChar (n : Nat) : Char :=
  if n < 10 then Char.ofNat (48 + n) else Char.ofNat (55 + n)

/-- The two hex characters of a byte, high nibble first. -/
def hexByteChars (b : Nat) : List Char :=
  [hexDigitChar (b / 16), hexDigitChar (b % 16)]

/-- Hex representation of a byte string, two characters per byte. -/
def hexChars : List Nat → List Char
  | [] => []
  | b :: rest => hexByteChars b ++ hexChars rest

/-- Numeric value of one hex character (digits, upper- and lowercase
letters accepted), `none` for a non-hex character. -/
def hexCharVal (c : Char) : Option Nat :=
  let n := c.toNat
  if 48 ≤ n ∧ n ≤ 57 then some (n - 48)
  else if 65 ≤ n ∧ n ≤ 70 then some (n - 55)
  else if 97 ≤ n ∧ n ≤ 102 then some (n - 87)
  else none

/-- Hex-decode a character string two characters at a time; fails on a
non-hex character or an odd character count. -/
def parseHexPairs : List Char → Option (List Nat)
  | [] => some []
  | [_] => none
  | c1 :: c2 :: rest =>
    match hexCharVal c1, hexCharVal c2, parseHexPairs rest with
    | some hi, some lo, some t => some ((16 * hi + lo) :: t)
    | _, _, _ => none

/-- ASCII framing: `':'`, the hex characters of unit, PDU and LRC, then
CR LF.
Modelled from the spec: `transport/ascii.py` is absent from the sources;
spec §6 wire format `':' | hex(unit) | hex(pdu) | hex(lrc) | CR LF`. -/
def encodeAsciiChars (unitId : Nat) (pdu : List Nat) : List Char :=
  ':' :: (hexChars ((unitId :: pdu) ++ [lrc (unitId :: pdu)]) ++ ['\r', '\n'])

/-- ASCII frame as a string. -/
def encodeAscii (unitId : Nat) (pdu : List Nat) : String :=
  String.mk (encodeAsciiChars unitId pdu)

/-- ASCII deframing of a complete frame: check the leading `':'` and the
trailing CR LF, hex-decode the body, verify the LRC over the decoded
bytes before the trailing LRC byte.
Modelled from the spec: `transport/ascii.py` is absent from the sources;
spec §4.3: read until CRLF bounded by an initial `':'`, validate hex,
verify LRC; malformed input is `InvalidResponseError`, an LRC mismatch a
checksum error. -/
def decodeAscii (frame : List Char) : Except ModbusLinkError (Nat × List Nat) :=
  match frame with
  | ':' :: rest =>
    if rest.drop (rest.length - 2) = ['\r', '\n'] then
      match parseHexPairs (rest.take (rest.length - 2)) with
      | some (unitB :: bytes) =>
        if 2 ≤ bytes.length then
          if bytes.drop (bytes.length - 1) =
              [lrc (unitB :: bytes.take (bytes.length - 1))] then
            Except.ok (unitB, bytes.take (bytes.length - 1))
          else
            Except.error ModbusLinkError.crcError
        else
          Except.error ModbusLinkError.invalidResponseError
      | _ => Except.error ModbusLinkError.invalidResponseError
    else
      Except.error ModbusLinkError.invalidResponseError
  | _ => Except.error ModbusLinkError.invalidResponseError

theorem hexCharVal_hexDigitChar (n : Nat) (h : n < 16) :
    hexCharVal (hexDigitChar n) = some n := by
  interval_cases n <;> decide

theorem parseHexPairs_hexChars (l : List Nat) (h : ∀ b ∈ l, b < 256) :
    parseHexPairs (hexChars l) = some l := by
  induction l with
  | nil => rfl
  | cons b rest ih =>
    have hb : b < 256 := h b (List.mem_cons_self b rest)
    have hhi : b / 16 < 16 := by omega
    have hlo : b % 16 < 16 := by omega
    show parseHexPairs (hexDigitChar (b / 16) :: hexDigitChar (b % 16) :: hexChars rest) = _
    show (match hexCharVal (hexDigitChar (b / 16)), hexCharVal (hexDigitChar (b % 16)),
      parseHexPairs (hexChars rest) with
      | some hi, some lo, some t => some ((16 * hi + lo) :: t)
      | _, _, _ => none) = some (b :: rest)
    rw [hexCharVal_hexDigitChar _ hhi, hexCharVal_hexDigitChar _ hlo,
      ih (fun x hx => h x (List.mem_cons_of_mem b hx))]
    show some ((16 * (b / 16) + b % 16) :: rest) = some (b :: rest)
    have hdm : 16 * (b / 16) + b % 16 = b := by omega
    rw [hdm]

theorem hexChars_length (l : List Nat) : (hexChars l).length = 2 * l.length := by
  induction l with
  | nil => rfl
  | cons b rest ih =>
    show (hexByteChars b ++ hexChars rest).length = 2 * (rest.length + 1)
    simp [hexByteChars, ih]
    omega

theorem lrc_lt (data : List Nat) : lrc data < 256 :=
  Nat.mod_lt _ (by norm_num)

theorem decodeAscii_encodeAsciiChars (u : Nat) (p : List Nat) (hu : u < 256)
    (hp : p ≠ []) (hbytes : ∀ b ∈ p, b < 256) :
    decodeAscii (encodeAsciiChars u p) = Except.ok (u, p) := by
  have hp1 : 1 ≤ p.length := List.length_pos.mpr hp
  set body := (u :: p) ++ [lrc (u :: p)] with hbody
  have hlenbody : (hexChars body).length = 2 * (p.length + 2) := by
    rw [hexChars_length]
    simp [hbody]
  have hrestlen : (hexChars body ++ ['\r', '\n']).length - 2 = (hexChars body).length := by
    simp
  show (if (hexChars body ++ ['\r', '\n']).drop
      ((hexChars body ++ ['\r', '\n']).length - 2) = ['\r', '\n'] then _ else _) = _
  rw [hrestlen, if_pos (List.drop_left _ _), List.take_left]
  have hall : ∀ b ∈ body, b < 256 := by
    intro b hb
    rw [hbody] at hb
    rcases List.mem_append.mp hb with h1 | h2
    · rcases List.mem_cons.mp h1 with rfl | h1
      · exact hu
      · exact hbytes b h1
    · rcases List.mem_singleton.mp h2 with rfl
      exact lrc_lt _
  rw [parseHexPairs_hexChars body hall]
  show (if 2 ≤ (p ++ [lrc (u :: p)]).length then _ else _) = _
  have hlen2 : (p ++ [lrc (u :: p)]).length = p.length + 1 := by simp
  rw [if_pos (by rw [hlen2]; omega)]
  have htake : (p ++ [lrc (u :: p)]).take ((p ++ [lrc (u :: p)]).length - 1) = p := by
    rw [hlen2]
    exact List.take_left' rfl
  have hdrop : (p ++ [lrc (u :: p)]).drop ((p ++ [lrc (u :: p)]).length - 1) =
      [lrc (u :: p)] := by
    rw [hlen2]
    exact List.drop_left' rfl
  simp [htake, hdrop]

/-- Endianness of the two bytes inside one 16-bit word (spec §4.2). -/
inductive ByteOrder where
  | big
  | little
deriving DecidableEq

/-- Order of the words of a multi-register value (spec §4.2). -/
inductive WordOrder where
  | highFirst
  | lowFirst
deriving DecidableEq

/-- Swap the two bytes of a 16-bit word. -/
def swapBytes16 (w : Nat) : Nat :=
  w % 256 * 256 + w / 256

/-- Register written for a 16-bit word under a byte order. -/
def regOfWord : ByteOrder → Nat → Nat
  | ByteOrder.big, w => w
  | ByteOrder.little, w => swapBytes16 w

/-- 16-bit word read back from a register under a byte order. -/
def wordOfReg : ByteOrder → Nat → Nat
  | ByteOrder.big, r => r
  | ByteOrder.little, r => swapBytes16 r

/-- Arrange a high-first word list under a word order. -/
def orderWords : WordOrder → List Nat → List Nat
  | WordOrder.highFirst, ws => ws
  | WordOrder.lowFirst, ws => ws.reverse

/-- Encode a 32-bit unsigned value as two 16-bit registers under the given
byte and word order.
Modelled from the spec: the payload codec module is absent from the
sources; spec §4.2: two consecutive registers, word order and per-word
byte order independently configurable. -/
def encodeU32 (v : Nat) (bo : ByteOrder) (wo : WordOrder) : List Nat :=
  (orderWords wo [v / 65536, v % 65536]).map (regOfWord bo)

/-- Decode two registers back to a 32-bit unsigned value under the given
byte and word order. Modelled from the spec (§4.2). -/
def decodeU32 (regs : List Nat) (bo : ByteOrder) (wo : WordOrder) : Nat :=
  match orderWords wo (regs.map (wordOfReg bo)) with
  | [hi, lo] => hi * 65536 + lo
  | _ => 0

/-- Encode a 64-bit pattern as four 16-bit registers.
Modelled from the spec (§4.2): a float64 is four consecutive registers. -/
def encodeU64 (v : Nat) (bo : ByteOrder) (wo : WordOrder) : List Nat :=
  (orderWords wo [v / 281474976710656, v / 4294967296 % 65536, v / 65536 % 65536, v % 65536]).map
    (regOfWord bo)

/-- Decode four registers back to a 64-bit pattern. Modelled from the
spec (§4.2). -/
def decodeU64 (regs : List Nat) (bo : ByteOrder) (wo : WordOrder) : Nat :=
  match orderWords wo (regs.map (wordOfReg bo)) with
  | [w3, w2, w1, w0] => w3 * 281474976710656 + w2 * 4294967296 + w1 * 65536 + w0
  | _ => 0

/-- Encode a signed 32-bit value via its two's-complement pattern.
Modelled from the spec (§4.2). -/
def encodeI32 (v : Int) (bo : ByteOrder) (wo : WordOrder) : List Nat :=
  encodeU32 (v % 4294967296).toNat bo wo

/-- Decode a signed 32-bit value from its two's-complement pattern.
Modelled from the spec (§4.2). -/
def decodeI32 (regs : List Nat) (bo : ByteOrder) (wo : WordOrder) : Int :=
  let u := decodeU32 regs bo wo
  if u < 2147483648 then (u : Int) else (u : Int) - 4294967296

/-- A float32 travels as its IEEE-754 bit pattern arranged exactly like a
32-bit unsigned value. Floating point itself is not embedded; the codec is
verified on the 32-bit pattern. Modelled from the spec (§4.2). -/
def encodeFloat32Bits (bits : Nat) (bo : ByteOrder) (wo : WordOrder) : List Nat :=
  encodeU32 bits bo wo

/-- Inverse of `encodeFloat32Bits` on the bit pattern. -/
def decodeFloat32Bits (regs : List Nat) (bo : ByteOrder) (wo : WordOrder) : Nat :=
  decodeU32 regs bo wo

/-- A float64 travels as its IEEE-754 bit pattern arranged exactly like a
64-bit unsigned value. Modelled from the spec (§4.2). -/
def encodeFloat64Bits (bits : Nat) (bo : ByteOrder) (wo : WordOrder) : List Nat :=
  encodeU64 bits bo wo

/-- Inverse of `encodeFloat64Bits` on the bit pattern. -/
def decodeFloat64Bits (regs : List Nat) (bo : ByteOrder) (wo : WordOrder) : Nat :=
  decodeU64 regs bo wo

/-- Pack a byte string into registers, two bytes per register, padding an
odd-length string with one null byte.
Modelled from the spec (§4.2): "a string is packed two ASCII/UTF-8 bytes
per register, padded with a null byte if the length is odd". -/
def regsOfBytes : List Nat → List Nat
  | [] => []
  | [b] => [b * 256]
  | b1 :: b2 :: rest => (b1 * 256 + b2) :: regsOfBytes rest

/-- Unpack registers into their bytes, two per register. -/
def bytesOfRegs : List Nat → List Nat
  | [] => []
  | r :: rest => r / 256 :: r % 256 :: bytesOfRegs rest

/-- String encoding to registers. Modelled from the spec (§4.2); the spec
gives the string codec no byte/word order parameters. -/
def encodeString (s : List Nat) : List Nat :=
  regsOfBytes s

/-- String decoding from registers: take exactly the declared byte length,
never scanning for null bytes. Modelled from the spec (§4.2). -/
def decodeString (regs : List Nat) (declaredLen : Nat) : List Nat :=
  (bytesOfRegs regs).take declaredLen

theorem swapBytes16_involutive (w : Nat) (h : w < 65536) :
    swapBytes16 (swapBytes16 w) = w := by
  unfold swapBytes16
  omega

theorem decodeU32_encodeU32 (v : Nat) (bo : ByteOrder) (wo : WordOrder)
    (h : v < 4294967296) :
    decodeU32 (encodeU32 v bo wo) bo wo = v := by
  cases bo <;> cases wo <;>
    simp [decodeU32, encodeU32, orderWords, regOfWord, wordOfReg, swapBytes16] <;>
    omega

theorem decodeU64_encodeU64 (v : Nat) (bo : ByteOrder) (wo : WordOrder)
    (h : v < 18446744073709551616) :
    decodeU64 (encodeU64 v bo wo) bo wo = v := by
  have h3 : v / 281474976710656 < 65536 := by omega
  have h2 : v / 4294967296 % 65536 < 65536 := by omega
  have h1 : v / 65536 % 65536 < 65536 := by omega
  have h0 : v % 65536 < 65536 := by omega
  cases bo <;> cases wo <;>
    simp [decodeU64, encodeU64, orderWords, regOfWord, wordOfReg,
      swapBytes16_involutive _ h3, swapBytes16_involutive _ h2,
      swapBytes16_involutive _ h1, swapBytes16_involutive _ h0] <;>
    omega

theorem decodeI32_encodeI32 (v : Int) (bo : ByteOrder) (wo : WordOrder)
    (h1 : -2147483648 ≤ v) (h2 : v < 2147483648) :
    decodeI32 (encodeI32 v bo wo) bo wo = v := by
  unfold encodeI32 decodeI32
  rw [decodeU32_encodeU32 _ bo wo (by omega)]
  dsimp only
  split <;> omega

theorem bytesOfRegs_regsOfBytes : ∀ s : List Nat, (∀ b ∈ s, b < 256) →
    bytesOfRegs (regsOfBytes s) = s ∨ bytesOfRegs (regsOfBytes s) = s ++ [0]
  | [], _ => Or.inl rfl
  | [b], h => by
    have hb : b < 256 := h b (by simp)
    right
    show b * 256 / 256 :: b * 256 % 256 :: [] = [b, 0]
    have h1 : b * 256 / 256 = b := by omega
    have h2 : b * 256 % 256 = 0 := by omega
    rw [h1, h2]
  | b1 :: b2 :: rest, h => by
    have h1 : b1 < 256 := h b1 (by simp)
    have h2 : b2 < 256 := h b2 (by simp)
    have ih := bytesOfRegs_regsOfBytes rest (fun x hx => h x (by simp [hx]))
    have hred : bytesOfRegs (regsOfBytes (b1 :: b2 :: rest)) =
        b1 :: b2 :: bytesOfRegs (regsOfBytes rest) := by
      show (b1 * 256 + b2) / 256 :: (b1 * 256 + b2) % 256 :: bytesOfRegs (regsOfBytes rest) =
        b1 :: b2 :: bytesOfRegs (regsOfBytes rest)
      have e1 : (b1 * 256 + b2) / 256 = b1 := by omega
      have e2 : (b1 * 256 + b2) % 256 = b2 := by omega
      rw [e1, e2]
    rw [hred]
    rcases ih with heq | heq
    · left
      rw [heq]
    · right
      rw [heq]
      rfl

theorem decodeString_encodeString (s : List Nat) (h : ∀ b ∈ s, b < 256) :
    decodeString (encodeString s) s.length = s := by
  unfold decodeString encodeString
  rcases bytesOfRegs_regsOfBytes s h with heq | heq
  · rw [heq, List.take_length]
  · rw [heq]
    exact List.take_left' rfl

/-- LSB-first value of up to eight bit flags. -/
def bitsToNat : List Bool → Nat
  | [] => 0
  | b :: rest => (if b then 1 else 0) + 2 * bitsToNat rest

/-- Pack coil values into bytes, eight per byte, LSB first. -/
def packBits (l : List Bool) : List Nat :=
  match l with
  | [] => []
  | b :: rest => bitsToNat ((b :: rest).take 8) :: packBits ((b :: rest).drop 8)
termination_by l.length
decreasing_by
  simp
  omega

/-- A client bulk read of coils: validate the arguments locally, then (and
only then) perform exactly one transport exchange. The second component is
the list of `(slave, request pdu)` wire exchanges performed.
Modelled from the spec: `client/sync_client.py` is absent from the
sources; spec §3 bounds coil reads at 2000 per request, §4.2/§7 demand
the out-of-range check before any I/O. -/
def readCoils (respond : Nat → List Nat → Except ModbusLinkError (List Nat))
    (slaveId startAddr quantity : Nat) :
    Except ModbusLinkError (List Nat) × List (Nat × List Nat) :=
  if quantity < 1 ∨ 2000 < quantity ∨ 65535 < startAddr then
    (Except.error ModbusLinkError.invalidArgument, [])
  else
    let pdu := [1, startAddr / 256, startAddr % 256, quantity / 256, quantity % 256]
    (respond slaveId pdu, [(slaveId, pdu)])

/-- A client bulk read of holding registers; bound 125 per request.
Modelled from the spec (§3, §4.2, §7) as `readCoils`. -/
def readHoldingRegisters (respond : Nat → List Nat → Except ModbusLinkError (List Nat))
    (slaveId startAddr quantity : Nat) :
    Except ModbusLinkError (List Nat) × List (Nat × List Nat) :=
  if quantity < 1 ∨ 125 < quantity ∨ 65535 < startAddr then
    (Except.error ModbusLinkError.invalidArgument, [])
  else
    let pdu := [3, startAddr / 256, startAddr % 256, quantity / 256, quantity % 256]
    (respond slaveId pdu, [(slaveId, pdu)])

/-- A client bulk write of coils; bound 1968 per request.
Modelled from the spec (§3, §4.2, §7). -/
def writeMultipleCoils (respond : Nat → List Nat → Except ModbusLinkError (List Nat))
    (slaveId startAddr : Nat) (values : List Bool) :
    Except ModbusLinkError Unit × List (Nat × List Nat) :=
  if values.length < 1 ∨ 1968 < values.length ∨ 65535 < startAddr then
    (Except.error ModbusLinkError.invalidArgument, [])
  else
    let pdu := [15, startAddr / 256, startAddr % 256, values.length / 256,
      values.length % 256, (values.length + 7) / 8] ++ packBits values
    (match respond slaveId pdu with
      | Except.ok _ => Except.ok ()
      | Except.error e => Except.error e, [(slaveId, pdu)])

/-- A client bulk write of registers; bound 123 per request.
Modelled from the spec (§3, §4.2, §7). -/
def writeMultipleRegisters (respond : Nat → List Nat → Except ModbusLinkError (List Nat))
    (slaveId startAddr : Nat) (values : List Nat) :
    Except ModbusLinkError Unit × List (Nat × List Nat) :=
  if values.length < 1 ∨ 123 < values.length ∨ 65535 < startAddr then
    (Except.error ModbusLinkError.invalidArgument, [])
  else
    let pdu := [16, startAddr / 256, startAddr % 256, values.length / 256,
      values.length % 256, 2 * values.length] ++ bytesOfRegs values
    (match respond slaveId pdu with
      | Except.ok _ => Except.ok ()
      | Except.error e => Except.error e, [(slaveId, pdu)])

/-- First stage of response PDU decoding: a function code with its high
bit set is an exception response whose single payload byte is the
exception code.
Modelled from the spec: the PDU decoder is absent from the sources; spec
§4.2: "if the high bit of the function code is set, an exception ...
decoded from the single payload byte". Bytes are `< 256`, so the high bit
being set is `128 ≤ fc`. -/
def decodeResponsePdu (pdu : List Nat) : Except ModbusLinkError (Nat × List Nat) :=
  match pdu with
  | [] => Except.error ModbusLinkError.invalidResponseError
  | fc :: payload =>
    if 128 ≤ fc then
      Except.error (ModbusLinkError.modbusException (payload.headD 0))
    else
      Except.ok (fc, payload)

/-- Human-readable meaning of a Modbus exception code (spec §4.2). -/
def exceptionCodeMessage (code : Nat) : String :=
  match code with
  | 1 => "illegal function"
  | 2 => "illegal data address"
  | 3 => "illegal data value"
  | 4 => "slave device failure"
  | 5 => "acknowledge"
  | 6 => "slave device busy"
  | _ => "unknown exception code"

/-- The two lifecycle effects of a transport, abstracted over the
connection state `σ`; from `src/modbuslink/transport/async_base.py`, where
`open` and `close` are the abstract methods the context manager calls. -/
structure TransportOps (σ : Type) where
  openT : σ → σ
  closeT : σ → σ

/-- `AsyncBaseTransport.__aenter__`
(src/modbuslink/transport/async_base.py, line 114): awaits `self.open()`
and returns `self`. -/
def aenter {σ : Type} (ops : TransportOps σ) (s : σ) : σ :=
  ops.openT s

/-- `AsyncBaseTransport.__aexit__`
(src/modbuslink/transport/async_base.py, line 119): awaits `self.close()`;
its body has no return statement, so it returns `None`. -/
def aexit {σ : Type} (ops : TransportOps σ) (s : σ) : σ × Option Bool :=
  (ops.closeT s, none)

/-- Truthiness of the value returned by `__aexit__`; `None` is falsy, so
an exception from the body is never suppressed. -/
def truthy : Option Bool → Bool
  | none => false
  | some b => b

/-- Result of a scoped `async with` use of a transport. -/
inductive WithOutcome (α ε : Type) where
  | ok (a : α)
  | raised (e : ε)
  | suppressed

/-- The semantics of `async with transport:` applied to
`AsyncBaseTransport`: run `__aenter__` (which opens), run the body, run
`__aexit__` (which closes) on both the normal and the raising path, and
re-raise the body's exception unless `__aexit__` returned a truthy
value. -/
def asyncWithTransport {σ α ε : Type} (ops : TransportOps σ)
    (body : σ → σ × Except ε α) (s : σ) : σ × WithOutcome α ε :=
  let s1 := aenter ops s
  match body s1 with
  | (s2, Except.ok v) =>
    let (s3, _) := aexit ops s2
    (s3, WithOutcome.ok v)
  | (s2, Except.error e) =>
    let (s3, r) := aexit ops s2
    (s3, if truthy r then WithOutcome.suppressed else WithOutcome.raised e)

/-- The names re-exported by `src/modbuslink/__init__.py` (its `__all__`,
lines 26-40, matching its import list). -/
def initAllExports : List String :=
  ["ModbusClient", "AsyncModbusClient", "RtuTransport", "TcpTransport",
   "AsyncTcpTransport", "ModbusSlave", "DataStore", "ModbusLinkError",
   "ConnectionError", "TimeoutError", "CRCError", "InvalidResponseError",
   "ModbusException"]

/-- The names `examples/sync_ascii_example.py` imports from `modbuslink`
(lines 13-19). -/
def syncAsciiExampleImports : List String :=
  ["ModbusClient", "AsciiTransport", "ConnectionError", "TimeoutError",
   "ModbusException"]

/-- The names `examples/async_rtu_example.py` imports from `modbuslink`
(lines 13-20). -/
def asyncRtuExampleImports : List String :=
  ["AsyncModbusClient", "AsyncRtuTransport", "ConnectionError",
   "TimeoutError", "CRCError", "ModbusException"]

/-- The names `examples/async_ascii_example.py` imports from `modbuslink`
(lines 13-20). -/
def asyncAsciiExampleImports : List String :=
  ["AsyncModbusClient", "AsyncAsciiTransport", "ConnectionError",
   "TimeoutError", "CRCError", "ModbusException"]

/-- The two concurrently issued logical calls of the serialization model,
in submission order `a` before `b`. -/
inductive CallId where
  | a
  | b
deriving DecidableEq

/-- Progress of one logical call through its wire exchange. -/
inductive CallPhase where
  | submitted
  | acquiredLock
  | wroteFirst
  | finished
deriving DecidableEq

/-- State of one transport instance with two concurrently issued calls.
Modelled from the spec: the transport lock is absent from the sources;
spec §5: a transport holds an internal mutual-exclusion guarantee (a
single-slot queue/mutex) so concurrently issued calls run one at a time
in submission order. `queue` is the submission-ordered wait queue,
`lockHolder` the call currently holding the guarantee, `wire` the
sequence of byte chunks written, tagged by the call that wrote them. -/
structure WireState where
  queue : List CallId
  lockHolder : Option CallId
  phaseA : CallPhase
  phaseB : CallPhase
  wire : List (CallId × Nat)
deriving DecidableEq

/-- Phase of a given call. -/
def WireState.phase (s : WireState) : CallId → CallPhase
  | CallId.a => s.phaseA
  | CallId.b => s.phaseB

/-- Update the phase of a given call. -/
def WireState.setPhase (s : WireState) (c : CallId) (p : CallPhase) : WireState :=
  match c with
  | CallId.a => { s with phaseA := p }
  | CallId.b => { s with phaseB := p }

/-- One scheduler step of the serialization model. Each logical call
acquires the transport's mutual-exclusion guarantee (only the head of the
submission queue may, and only while nobody holds it), writes its request
in two separate chunks while holding it, and releases it with the second
chunk. Modelled from the spec (§5). -/
inductive CallStep : WireState → WireState → Prop where
  | acquire (s : WireState) (c : CallId) (rest : List CallId)
      (hq : s.queue = c :: rest) (hl : s.lockHolder = none)
      (hp : s.phase c = CallPhase.submitted) :
      CallStep s ({ s with queue := rest, lockHolder := some c }.setPhase c
        CallPhase.acquiredLock)
  | writeFirst (s : WireState) (c : CallId)
      (hl : s.lockHolder = some c) (hp : s.phase c = CallPhase.acquiredLock) :
      CallStep s ({ s with wire := s.wire ++ [(c, 1)] }.setPhase c CallPhase.wroteFirst)
  | writeSecond (s : WireState) (c : CallId)
      (hl : s.lockHolder = some c) (hp : s.phase c = CallPhase.wroteFirst) :
      CallStep s ({ s with wire := s.wire ++ [(c, 2)], lockHolder := none }.setPhase c
        CallPhase.finished)

/-- Initial state: both calls submitted, `a` ahead of `b`, nothing on the
wire. -/
def initWireState : WireState :=
  ⟨[CallId.a, CallId.b], none, CallPhase.submitted, CallPhase.submitted, []⟩

/-- States reachable from the initial state under any scheduling. -/
def ReachableWire (s : WireState) : Prop :=
  Relation.ReflTransGen CallStep initWireState s

/-- Intermediate states of the only possible schedule. -/
def wireSt1 : WireState :=
  ⟨[CallId.b], some CallId.a, CallPhase.acquiredLock, CallPhase.submitted, []⟩

def wireSt2 : WireState :=
  ⟨[CallId.b], some CallId.a, CallPhase.wroteFirst, CallPhase.submitted,
    [(CallId.a, 1)]⟩

def wireSt3 : WireState :=
  ⟨[CallId.b], none, CallPhase.finished, CallPhase.submitted,
    [(CallId.a, 1), (CallId.a, 2)]⟩

def wireSt4 : WireState :=
  ⟨[], some CallId.b, CallPhase.finished, CallPhase.acquiredLock,
    [(CallId.a, 1), (CallId.a, 2)]⟩

def wireSt5 : WireState :=
  ⟨[], some CallId.b, CallPhase.finished, CallPhase.wroteFirst,
    [(CallId.a, 1), (CallId.a, 2), (CallId.b, 1)]⟩

def wireSt6 : WireState :=
  ⟨[], none, CallPhase.finished, CallPhase.finished,
    [(CallId.a, 1), (CallId.a, 2), (CallId.b, 1), (CallId.b, 2)]⟩

theorem reachable_wire_states (s : WireState) (h : ReachableWire s) :
    s = initWireState ∨ s = wireSt1 ∨ s = wireSt2 ∨ s = wireSt3 ∨
    s = wireSt4 ∨ s = wireSt5 ∨ s = wireSt6 := by
  induction h with
  | refl => exact Or.inl rfl
  | tail hreach hstep ih =>
    cases hstep with
    | acquire c rest hq hl hp =>
      rcases ih with rfl | rfl | rfl | rfl | rfl | rfl | rfl <;> rcases c <;>
        simp_all [initWireState, wireSt1, wireSt2, wireSt3, wireSt4, wireSt5,
          wireSt6, WireState.phase, WireState.setPhase]
    | writeFirst c hl hp =>
      rcases ih with rfl | rfl | rfl | rfl | rfl | rfl | rfl <;> rcases c <;>
        simp_all [initWireState, wireSt1, wireSt2, wireSt3, wireSt4, wireSt5,
          wireSt6, WireState.phase, WireState.setPhase]
    | writeSecond c hl hp =>
      rcases ih with rfl | rfl | rfl | rfl | rfl | rfl | rfl <;> rcases c <;>
        simp_all [initWireState, wireSt1, wireSt2, wireSt3, wireSt4, wireSt5,
          wireSt6, WireState.phase, WireState.setPhase]

/-- Length of the byte expansion of a register list. -/
theorem bytesOfRegs_length (l : List Nat) : (bytesOfRegs l).length = 2 * l.length := by
  induction l with
  | nil => rfl
  | cons r rest ih =>
    show (r / 256 :: r % 256 :: bytesOfRegs rest).length = 2 * (rest.length + 1)
    simp [ih]
    omega

/-- A transport mock whose canned response is irrelevant to the
validation theorems: only whether it is consulted at all matters. -/
def mockRespond : Nat → List Nat → Except ModbusLinkError (List Nat) :=
  fun _ _ => Except.ok []

set_option maxRecDepth 8000

/-- Claim C1: for every valid pair (unit, pdu) — unit in 0..247 and pdu a
well-formed Modbus PDU — and each of the three framings (RTU, ASCII,
TCP), decoding the bytes produced by that framing's encoder returns
exactly the original pair. -/
theorem c1_frame_roundtrip (u txn : Nat) (p : List Nat) (hu : ValidUnit u)
    (hp : WellFormedPdu p) (htxn : txn < 65536) :
    decodeRtu (encodeRtu u p) = Except.ok (u, p) ∧
    decodeAscii (encodeAsciiChars u p) = Except.ok (u, p) ∧
    decodeTcp txn (encodeTcp txn u p) = Except.ok (u, p) := by
  obtain ⟨hne, hlen, hbytes⟩ := hp
  have hu256 : u < 256 := by
    have : u ≤ 247 := hu
    omega
  exact ⟨decodeRtu_encodeRtu u p hne,
    decodeAscii_encodeAsciiChars u p hu256 hne hbytes,
    decodeTcp_encodeTcp txn u p htxn (by omega)⟩

/-- Witness for C1 at unit 1, PDU `03 00 00 00 02`, transaction id 1. -/
theorem c1_frame_roundtrip_witness :
    decodeRtu (encodeRtu 1 [3, 0, 0, 0, 2]) = Except.ok (1, [3, 0, 0, 0, 2]) ∧
    decodeAscii (encodeAsciiChars 1 [3, 0, 0, 0, 2]) = Except.ok (1, [3, 0, 0, 0, 2]) ∧
    decodeTcp 1 (encodeTcp 1 1 [3, 0, 0, 0, 2]) = Except.ok (1, [3, 0, 0, 0, 2]) :=
  c1_frame_roundtrip 1 1 [3, 0, 0, 0, 2]
    (by show (1 : Nat) ≤ 247; norm_num)
    (by refine ⟨?_, ?_, ?_⟩ <;> decide)
    (by norm_num)

/-- Claim C2: RTU encoding of unit 1, function 0x03, address 0, quantity
2 is exactly `01 03 00 00 00 02 C4 0B`; the trailing bytes are the CRC16
(poly 0xA001, init 0xFFFF) over unit+PDU appended low byte first, and
every RTU frame has length `1 + len(PDU) + 2`. -/
theorem c2_rtu_frame_shape :
    encodeRtu 1 [3, 0, 0, 0, 2] = [1, 3, 0, 0, 0, 2, 0xC4, 0x0B] ∧
    crc16 [1, 3, 0, 0, 0, 2] = 0x0BC4 ∧
    (∀ u p, encodeRtu u p =
      (u :: p) ++ [crc16 (u :: p) % 256, crc16 (u :: p) / 256]) ∧
    (∀ u p, (encodeRtu u p).length = 1 + p.length + 2) := by
  refine ⟨by decide, by decide, fun u p => ?_, fun u p => ?_⟩
  · show u :: (p ++ [crc16 (u :: p) % 256, crc16 (u :: p) / 256]) = _
    simp
  · show (u :: (p ++ [crc16 (u :: p) % 256, crc16 (u :: p) / 256])).length = _
    simp
    omega

/-- Claim C3: the LRC is the two's-complement negation of the byte sum
modulo 256; for unit 1 and PDU `03 00 00 00 02` the LRC is 0xFA and the
ASCII frame is exactly `:010300000002FA` followed by CR LF. -/
theorem c3_ascii_frame :
    (∀ data : List Nat, (lrc data : Int) = (-(sumBytes data : Int)) % 256) ∧
    lrc [1, 3, 0, 0, 0, 2] = 0xFA ∧
    encodeAscii 1 [3, 0, 0, 0, 2] = ":010300000002FA\r\n" := by
  refine ⟨fun data => ?_, by decide, by decide⟩
  unfold lrc
  omega

/-- Claim C4: the TCP framing is a 7-byte MBAP header — big-endian
transaction id, protocol id 0, big-endian length `1 + len(PDU)`, unit id
— followed by the PDU; for transaction 1, unit 1 and a 5-byte PDU the
frame begins `00 01 00 00 00 06 01`. -/
theorem c4_tcp_mbap (txn u : Nat) (p : List Nat) (htxn : txn < 65536) :
    encodeTcp txn u p =
      [txn / 256, txn % 256, 0, 0, (1 + p.length) / 256, (1 + p.length) % 256, u] ++ p ∧
    (encodeTcp txn u p).length = 7 + p.length ∧
    (p.length = 5 → txn = 1 → u = 1 →
      (encodeTcp txn u p).take 7 = [0, 1, 0, 0, 0, 6, 1]) := by
  refine ⟨rfl, by simp [encodeTcp]; omega, ?_⟩
  intro h5 htx hu
  subst htx
  subst hu
  rw [show encodeTcp 1 1 p = [0, 1, 0, 0, 0, 6, 1] ++ p by simp [encodeTcp, h5]]
  exact List.take_left' rfl

/-- Witness for C4 at transaction 1, unit 1 and the 5-byte PDU
`03 00 00 00 02`. -/
theorem c4_tcp_mbap_witness :
    encodeTcp 1 1 [3, 0, 0, 0, 2] = [0, 1, 0, 0, 0, 6, 1] ++ [3, 0, 0, 0, 2] ∧
    (encodeTcp 1 1 [3, 0, 0, 0, 2]).take 7 = [0, 1, 0, 0, 0, 6, 1] :=
  ⟨(c4_tcp_mbap 1 1 [3, 0, 0, 0, 2] (by norm_num)).1,
   (c4_tcp_mbap 1 1 [3, 0, 0, 0, 2] (by norm_num)).2.2 rfl rfl rfl⟩

/-- Claim C5: a bulk quantity beyond the per-operation bound (more than
2000 coils per read, 1968 per write, 125 registers per read, 123 per
write) fails local validation and performs zero transport exchanges: the
I/O log stays empty. -/
theorem c5_bulk_bounds (respond : Nat → List Nat → Except ModbusLinkError (List Nat))
    (slaveId startAddr qtyCoils qtyRegs : Nat) (coilValues : List Bool)
    (regValues : List Nat) :
    (2000 < qtyCoils → readCoils respond slaveId startAddr qtyCoils =
      (Except.error ModbusLinkError.invalidArgument, [])) ∧
    (125 < qtyRegs → readHoldingRegisters respond slaveId startAddr qtyRegs =
      (Except.error ModbusLinkError.invalidArgument, [])) ∧
    (1968 < coilValues.length → writeMultipleCoils respond slaveId startAddr coilValues =
      (Except.error ModbusLinkError.invalidArgument, [])) ∧
    (123 < regValues.length → writeMultipleRegisters respond slaveId startAddr regValues =
      (Except.error ModbusLinkError.invalidArgument, [])) := by
  refine ⟨fun h => ?_, fun h => ?_, fun h => ?_, fun h => ?_⟩
  · show (if qtyCoils < 1 ∨ 2000 < qtyCoils ∨ 65535 < startAddr then _ else _) = _
    rw [if_pos (Or.inr (Or.inl h))]
  · show (if qtyRegs < 1 ∨ 125 < qtyRegs ∨ 65535 < startAddr then _ else _) = _
    rw [if_pos (Or.inr (Or.inl h))]
  · show (if coilValues.length < 1 ∨ 1968 < coilValues.length ∨ 65535 < startAddr
        then _ else _) = _
    rw [if_pos (Or.inr (Or.inl h))]
  · show (if regValues.length < 1 ∨ 123 < regValues.length ∨ 65535 < startAddr
        then _ else _) = _
    rw [if_pos (Or.inr (Or.inl h))]

/-- Witness for C5: 2001 coils, 126 registers, 1969 coil writes, 124
register writes — each rejected with an empty I/O log. -/
theorem c5_bulk_bounds_witness :
    readCoils mockRespond 1 0 2001 = (Except.error ModbusLinkError.invalidArgument, []) ∧
    readHoldingRegisters mockRespond 1 0 126 =
      (Except.error ModbusLinkError.invalidArgument, []) ∧
    writeMultipleCoils mockRespond 1 0 (List.replicate 1969 true) =
      (Except.error ModbusLinkError.invalidArgument, []) ∧
    writeMultipleRegisters mockRespond 1 0 (List.replicate 124 0) =
      (Except.error ModbusLinkError.invalidArgument, []) :=
  ⟨(c5_bulk_bounds mockRespond 1 0 2001 126 (List.replicate 1969 true)
      (List.replicate 124 0)).1 (by norm_num),
   (c5_bulk_bounds mockRespond 1 0 2001 126 (List.replicate 1969 true)
      (List.replicate 124 0)).2.1 (by norm_num),
   (c5_bulk_bounds mockRespond 1 0 2001 126 (List.replicate 1969 true)
      (List.replicate 124 0)).2.2.1 (by simp),
   (c5_bulk_bounds mockRespond 1 0 2001 126 (List.replicate 1969 true)
      (List.replicate 124 0)).2.2.2 (by simp)⟩

/-- Claim C6: encode/decode of the extended types is symmetric for every
byte order and word order — exactly for uint32, int32 and strings (odd
strings padded with one null on encode, decode truncating only at the
declared length so embedded nulls survive), and on the 32/64-bit IEEE
patterns standing for float32/float64. -/
theorem c6_extended_type_symmetry :
    (∀ v bo wo, v < 4294967296 → decodeU32 (encodeU32 v bo wo) bo wo = v) ∧
    (∀ v bo wo, -2147483648 ≤ v → v < 2147483648 →
      decodeI32 (encodeI32 v bo wo) bo wo = v) ∧
    (∀ bits bo wo, bits < 4294967296 →
      decodeFloat32Bits (encodeFloat32Bits bits bo wo) bo wo = bits) ∧
    (∀ bits bo wo, bits < 18446744073709551616 →
      decodeFloat64Bits (encodeFloat64Bits bits bo wo) bo wo = bits) ∧
    (∀ s : List Nat, (∀ b ∈ s, b < 256) →
      decodeString (encodeString s) s.length = s) ∧
    (∀ s : List Nat, (∀ b ∈ s, b < 256) → s.length % 2 = 1 →
      bytesOfRegs (encodeString s) = s ++ [0]) := by
  refine ⟨fun v bo wo h => decodeU32_encodeU32 v bo wo h,
    fun v bo wo h1 h2 => decodeI32_encodeI32 v bo wo h1 h2,
    fun bits bo wo h => decodeU32_encodeU32 bits bo wo h,
    fun bits bo wo h => decodeU64_encodeU64 bits bo wo h,
    fun s h => decodeString_encodeString s h,
    fun s h hodd => ?_⟩
  rcases bytesOfRegs_regsOfBytes s h with heq | heq
  · exfalso
    have hlen := congrArg List.length heq
    rw [bytesOfRegs_length] at hlen
    omega
  · exact heq

/-- Witness for C6 on concrete values, including a string with an
embedded null byte. -/
theorem c6_extended_type_symmetry_witness :
    decodeU32 (encodeU32 305419896 ByteOrder.little WordOrder.lowFirst)
      ByteOrder.little WordOrder.lowFirst = 305419896 ∧
    decodeI32 (encodeI32 (-123456789) ByteOrder.little WordOrder.highFirst)
      ByteOrder.little WordOrder.highFirst = -123456789 ∧
    decodeFloat32Bits (encodeFloat32Bits 1103626240 ByteOrder.big WordOrder.lowFirst)
      ByteOrder.big WordOrder.lowFirst = 1103626240 ∧
    decodeFloat64Bits (encodeFloat64Bits 4627448617123184640 ByteOrder.little
      WordOrder.lowFirst) ByteOrder.little WordOrder.lowFirst = 4627448617123184640 ∧
    decodeString (encodeString [72, 0, 105]) 3 = [72, 0, 105] ∧
    bytesOfRegs (encodeString [72, 0, 105]) = [72, 0, 105] ++ [0] :=
  ⟨c6_extended_type_symmetry.1 305419896 ByteOrder.little WordOrder.lowFirst (by norm_num),
   c6_extended_type_symmetry.2.1 (-123456789) ByteOrder.little WordOrder.highFirst
     (by norm_num) (by norm_num),
   c6_extended_type_symmetry.2.2.1 1103626240 ByteOrder.big WordOrder.lowFirst
     (by norm_num),
   c6_extended_type_symmetry.2.2.2.1 4627448617123184640 ByteOrder.little
     WordOrder.lowFirst (by norm_num),
   c6_extended_type_symmetry.2.2.2.2.1 [72, 0, 105] (by decide),
   c6_extended_type_symmetry.2.2.2.2.2 [72, 0, 105] (by decide) (by decide)⟩

/-- Claim C7: a response PDU whose function code has its high bit set
decodes to a `ModbusException` carrying the exception code taken from the
single payload byte — code 0x02 meaning "illegal data address" — and that
error is distinct from every transport-level error. -/
theorem c7_exception_response (fc code : Nat) (rest : List Nat) (hfc : 128 ≤ fc) :
    decodeResponsePdu (fc :: code :: rest) =
      Except.error (ModbusLinkError.modbusException code) ∧
    exceptionCodeMessage 2 = "illegal data address" ∧
    (∀ c, ModbusLinkError.modbusException c ≠ ModbusLinkError.connectionError) ∧
    (∀ c, ModbusLinkError.modbusException c ≠ ModbusLinkError.timeoutError) ∧
    (∀ c, ModbusLinkError.modbusException c ≠ ModbusLinkError.crcError) ∧
    (∀ c, ModbusLinkError.modbusException c ≠ ModbusLinkError.invalidResponseError) := by
  refine ⟨?_, rfl, fun c h => ModbusLinkError.noConfusion h,
    fun c h => ModbusLinkError.noConfusion h, fun c h => ModbusLinkError.noConfusion h,
    fun c h => ModbusLinkError.noConfusion h⟩
  show (if 128 ≤ fc then _ else _) = _
  rw [if_pos hfc]
  rfl

/-- Witness for C7 at function code 0x83 (0x03 with the high bit set) and
exception code 0x02. -/
theorem c7_exception_response_witness :
    decodeResponsePdu [131, 2] = Except.error (ModbusLinkError.modbusException 2) ∧
    exceptionCodeMessage 2 = "illegal data address" :=
  ⟨(c7_exception_response 131 2 [] (by norm_num)).1,
   (c7_exception_response 131 2 [] (by norm_num)).2.1⟩

/-- Claim C8: on one transport instance, concurrently issued logical
calls run one at a time in submission order under the mutual-exclusion
guarantee: in every reachable scheduling, the wire holds all of call A's
bytes before all of call B's bytes — never interleaved — and when both
calls finish the wire is exactly A's two chunks then B's two chunks. -/
theorem c8_serialized_calls (s : WireState) (h : ReachableWire s) :
    s.wire = (s.wire.filter fun e => e.1 == CallId.a) ++
      (s.wire.filter fun e => e.1 == CallId.b) ∧
    (s.phaseA = CallPhase.finished → s.phaseB = CallPhase.finished →
      s.wire = [(CallId.a, 1), (CallId.a, 2), (CallId.b, 1), (CallId.b, 2)]) := by
  rcases reachable_wire_states s h with rfl | rfl | rfl | rfl | rfl | rfl | rfl <;>
    exact ⟨by decide, by decide⟩

/-- Witness for C8: the completed schedule is reachable and its wire is
A's chunks followed by B's chunks. -/
theorem c8_serialized_calls_witness :
    wireSt6.wire = [(CallId.a, 1), (CallId.a, 2), (CallId.b, 1), (CallId.b, 2)] :=
  (c8_serialized_calls wireSt6
    (Relation.ReflTransGen.tail
      (Relation.ReflTransGen.tail
        (Relation.ReflTransGen.tail
          (Relation.ReflTransGen.tail
            (Relation.ReflTransGen.tail
              (Relation.ReflTransGen.tail Relation.ReflTransGen.refl
                (CallStep.acquire initWireState CallId.a [CallId.b] rfl rfl rfl))
              (CallStep.writeFirst wireSt1 CallId.a rfl rfl))
            (CallStep.writeSecond wireSt2 CallId.a rfl rfl))
          (CallStep.acquire wireSt3 CallId.b [] rfl rfl rfl))
        (CallStep.writeFirst wireSt4 CallId.b rfl rfl))
      (CallStep.writeSecond wireSt5 CallId.b rfl rfl))).2 rfl rfl

/-- Claim C9: used via its context manager, a transport's `open()` runs
before the body and `close()` runs on every exit path — normal completion
and body exception alike — and a body exception is never swallowed: it
still propagates after `close()`, because `__aexit__` returns `None`. -/
theorem c9_scoped_lifecycle {σ α ε : Type} (ops : TransportOps σ)
    (body : σ → σ × Except ε α) (s : σ) :
    (∀ s2 v, body (ops.openT s) = (s2, Except.ok v) →
      asyncWithTransport ops body s = (ops.closeT s2, WithOutcome.ok v)) ∧
    (∀ s2 e, body (ops.openT s) = (s2, Except.error e) →
      asyncWithTransport ops body s = (ops.closeT s2, WithOutcome.raised e)) := by
  constructor <;> intro s2 x hbody <;>
    simp [asyncWithTransport, aenter, aexit, truthy, hbody]

/-- Event-logging transport operations for the C9 witness. -/
def logOps : TransportOps (List String) :=
  ⟨fun l => l ++ ["open"], fun l => l ++ ["close"]⟩

/-- A body that completes normally, for the C9 witness. -/
def okBody : List String → List String × Except ModbusLinkError Nat :=
  fun l => (l ++ ["body"], Except.ok 7)

/-- A body that raises, for the C9 witness. -/
def errBody : List String → List String × Except ModbusLinkError Nat :=
  fun l => (l ++ ["body"], Except.error ModbusLinkError.timeoutError)

/-- Witness for C9 on a concrete event log: open, body, close on both
paths, with the body's error re-raised. -/
theorem c9_scoped_lifecycle_witness :
    asyncWithTransport logOps okBody [] = (["open", "body", "close"], WithOutcome.ok 7) ∧
    asyncWithTransport logOps errBody [] =
      (["open", "body", "close"], WithOutcome.raised ModbusLinkError.timeoutError) :=
  ⟨(c9_scoped_lifecycle logOps okBody []).1 ["open", "body"] 7 rfl,
   (c9_scoped_lifecycle logOps errBody []).2 ["open", "body"]
     ModbusLinkError.timeoutError rfl⟩

/-- Claim C10 (refuting the exposure of all four transport families): the
repository's own examples import `AsciiTransport`, `AsyncRtuTransport`
and `AsyncAsciiTransport` from `modbuslink`, yet `__init__.py` exposes
none of them in `__all__` (nor imports them); only the sync RTU, sync TCP
and async TCP transports are exposed. -/
theorem c10_transport_exposure_gap :
    ("AsciiTransport" ∈ syncAsciiExampleImports ∧ "AsciiTransport" ∉ initAllExports) ∧
    ("AsyncRtuTransport" ∈ asyncRtuExampleImports ∧
      "AsyncRtuTransport" ∉ initAllExports) ∧
    ("AsyncAsciiTransport" ∈ asyncAsciiExampleImports ∧
      "AsyncAsciiTransport" ∉ initAllExports) ∧
    "RtuTransport" ∈ initAllExports ∧ "TcpTransport" ∈ initAllExports ∧
    "AsyncTcpTransport" ∈ initAllExports := by
  decide

end ModbusLink
